import Mathlib

/-!
Verification of the GANDALF SPH / Meshless-FV core (GradhSphTree.cpp,
SimGhostParticles.cpp) against its natural-language specification.

The C++ code is shallowly embedded over exact rationals.  The template
parameter ndim is instantiated at 1 for the per-particle routines (a real
instantiation of the source templates: MfvRungeKutta of dimension 1 and
Simulation of dimension 1 are explicitly instantiated in the source), and
at 3 for the boundary sweep.  External collaborators that are not part of
the provided sources (the smoothing kernel, the slope limiter, the Riemann
solver, the libm square root) are taken as function parameters.
-/

/-- Kind of a boundary face of the domain box: open, periodic or mirror.
Mirrors the string field x_boundary_lhs of DomainBox in SphSimulation.h. -/
inductive BoundaryKind
  | opn
  | periodic
  | mirror
deriving DecidableEq, Repr

/-- DomainBox of SphSimulation.h for ndim = 3: per-face boundary kinds and
the per-dimension box bounds and sizes (arrays unrolled to suffixes 0,1,2). -/
structure DomainBox3 where
  x_boundary_lhs : BoundaryKind
  x_boundary_rhs : BoundaryKind
  y_boundary_lhs : BoundaryKind
  y_boundary_rhs : BoundaryKind
  z_boundary_lhs : BoundaryKind
  z_boundary_rhs : BoundaryKind
  boxmin0 : ℚ
  boxmin1 : ℚ
  boxmin2 : ℚ
  boxmax0 : ℚ
  boxmax1 : ℚ
  boxmax2 : ℚ
  boxsize0 : ℚ
  boxsize1 : ℚ
  boxsize2 : ℚ

/-- Position and velocity of one SPH particle in three dimensions, the part
of SphParticle read and written by Simulation.CheckBoundaries. -/
structure Part3 where
  r0 : ℚ
  r1 : ℚ
  r2 : ℚ
  v0 : ℚ
  v1 : ℚ
  v2 : ℚ
deriving DecidableEq, Repr

/-- One dimension of the body of Simulation.CheckBoundaries
(SimGhostParticles.cpp): if r is below boxmin and the lhs face is periodic,
add boxsize; then, on the updated value, if r is above boxmax and the rhs
face is periodic, subtract boxsize.  No other boundary kind is acted on. -/
def wrapDim (lhs rhs : BoundaryKind) (bmin bmax bsize r : ℚ) : ℚ :=
  let r1 := if r < bmin ∧ lhs = BoundaryKind.periodic then r + bsize else r
  if bmax < r1 ∧ rhs = BoundaryKind.periodic then r1 - bsize else r1

/-- Per-particle body of Simulation.CheckBoundaries for ndim = 3: the three
dimensions are processed independently; velocities are never touched. -/
def checkBoundariesPart (box : DomainBox3) (p : Part3) : Part3 :=
  { p with
    r0 := wrapDim box.x_boundary_lhs box.x_boundary_rhs box.boxmin0 box.boxmax0 box.boxsize0 p.r0
    r1 := wrapDim box.y_boundary_lhs box.y_boundary_rhs box.boxmin1 box.boxmax1 box.boxsize1 p.r1
    r2 := wrapDim box.z_boundary_lhs box.z_boundary_rhs box.boxmin2 box.boxmax2 box.boxsize2 p.r2 }

/-- Simulation.CheckBoundaries: the sweep over all particles of the store. -/
def checkBoundaries (box : DomainBox3) (sph : List Part3) : List Part3 :=
  sph.map (checkBoundariesPart box)

/-- Ghost / particle type tag (the itype field).  For the dimension-1
instantiation only the x-face ghost kinds are reachable; gas is the tag of a
real (non-ghost) particle. -/
inductive GhostType
  | gas
  | x_lhs_periodic
  | x_rhs_periodic
  | x_lhs_mirror
  | x_rhs_mirror
deriving DecidableEq, Repr

/-- Domain box data used by the dimension-1 ghost routines. -/
structure Box1 where
  boxmin : ℚ
  boxmax : ℚ
  boxsize : ℚ
deriving DecidableEq, Repr

/-- MeshlessFVParticle fields handled by MfvRungeKutta.CopyDataToGhosts for
ndim = 1: position, velocity, the ghost bookkeeping fields, and
representative non-spatial state (mass, internal energy, density, smoothing
length). -/
structure MfvGhostPart where
  r : ℚ
  v : ℚ
  m : ℚ
  u : ℚ
  rho : ℚ
  h : ℚ
  iorig : ℕ
  itype : GhostType
  active : Bool
deriving DecidableEq, Repr

/-- Loop body of MfvRungeKutta.CopyDataToGhosts (GradhSphTree.cpp, ndim = 1
instantiation) for one ghost: reload the whole record from the parent,
restore iorig and itype, clear active, then modify position (and for mirror
kinds velocity) according to itype. -/
def copyDataToGhostMfv (box : Box1) (parent ghost : MfvGhostPart) : MfvGhostPart :=
  let p0 : MfvGhostPart :=
    { parent with iorig := ghost.iorig, itype := ghost.itype, active := false }
  match ghost.itype with
  | GhostType.x_lhs_periodic => { p0 with r := p0.r + box.boxsize }
  | GhostType.x_rhs_periodic => { p0 with r := p0.r - box.boxsize }
  | GhostType.x_lhs_mirror => { p0 with r := 2 * box.boxmin - p0.r, v := -p0.v }
  | GhostType.x_rhs_mirror => { p0 with r := 2 * box.boxmax - p0.r, v := -p0.v }
  | GhostType.gas => p0

/-- Position transform implied by a ghost kind, written from the words of
the specification (shift by one box length on the periodic axis, reflection
in the face on the mirror axis).  Used to compare the code against the
ghost-fidelity sentence of the spec. -/
def specGhostPosTransform (box : Box1) (t : GhostType) (r : ℚ) : ℚ :=
  match t with
  | GhostType.x_lhs_periodic => r + box.boxsize
  | GhostType.x_rhs_periodic => r - box.boxsize
  | GhostType.x_lhs_mirror => 2 * box.boxmin - r
  | GhostType.x_rhs_mirror => 2 * box.boxmax - r
  | GhostType.gas => r

/-- Velocity transform implied by a ghost kind, from the words of the
specification: the mirror-axis component changes sign, otherwise the
velocity is kept. -/
def specGhostVelTransform (t : GhostType) (v : ℚ) : ℚ :=
  match t with
  | GhostType.x_lhs_mirror => -v
  | GhostType.x_rhs_mirror => -v
  | _ => v

/-- SphParticle fields handled by the Simulation ghost routines for
ndim = 1 (SimGhostParticles.cpp): position, velocity, representative
non-spatial state, the parent index and the active flag.  This old particle
record carries no itype field. -/
structure SphSimPart where
  r : ℚ
  v : ℚ
  m : ℚ
  u : ℚ
  rho : ℚ
  h : ℚ
  iorig : ℕ
  active : Bool
deriving DecidableEq, Repr

/-- Loop body of Simulation.CopySphDataToGhosts for one ghost: the ghost
position and velocity are saved, the whole record is overwritten with the
parent record, then iorig is restored, active is cleared, and the saved
position and velocity are written back. -/
def copySphDataToGhost (parent ghost : SphSimPart) : SphSimPart :=
  { parent with iorig := ghost.iorig, active := false, r := ghost.r, v := ghost.v }

/-- Particle-store state used by Simulation.CreateGhostParticle: the real
count Nsph, the ghost count Nghost, the capacity fields, and the particle
array modelled as unbounded memory indexed by slot. -/
structure GhostState where
  Nsph : ℕ
  Nghost : ℕ
  Nghostmax : ℕ
  Nsphmax : ℕ
  data : ℕ → SphSimPart

/-- Non-raising path of Simulation.CreateGhostParticle (ndim = 1): copy
particle i into slot Nsph + Nghost, overwrite its position and velocity with
the supplied transformed values, clear active, set iorig to i when i is real
and to the iorig of i when i is itself a ghost, and bump Nghost. -/
def createGhostExec (st : GhostState) (i : ℕ) (rk vk : ℚ) : GhostState :=
  let src := st.data i
  let newp : SphSimPart :=
    { src with r := rk, v := vk, active := false,
               iorig := if st.Nsph ≤ i then src.iorig else i }
  { st with data := Function.update st.data (st.Nsph + st.Nghost) newp,
            Nghost := st.Nghost + 1 }

/-- Simulation.CreateGhostParticle: raise (none) exactly when
Nghost > Nghostmax at entry; otherwise store the new ghost in slot
Nsph + Nghost and return that slot index with the new state. -/
def createGhostParticle (st : GhostState) (i : ℕ) (rk vk : ℚ) :
    Option (ℕ × GhostState) :=
  if st.Nghostmax < st.Nghost then none
  else some (st.Nsph + st.Nghost, createGhostExec st i rk vk)

/-- Invariant of the ghost tail: every ghost slot stores the index of a real
particle in its iorig field. -/
def ghostIorigInv (st : GhostState) : Prop :=
  ∀ j ∈ Finset.range st.Nghost, (st.data (st.Nsph + j)).iorig < st.Nsph

instance (st : GhostState) : Decidable (ghostIorigInv st) := by
  unfold ghostIorigInv; infer_instance

/-- Parameters of MfvRungeKutta.ComputeH for ndim = 1: particle mass, the
h-rho coupling constants, the cap hmax handed in by the caller, the
neighbour mass and squared-distance arrays, and the kernel shape functions
(collaborators outside the provided sources) taken as parameters. -/
structure HParams where
  m : ℚ
  h_fac : ℚ
  h_converge : ℚ
  small_number : ℚ
  hmax : ℚ
  mlist : List ℚ
  drsqd : List ℚ
  w0s2 : ℚ → ℚ
  womega : ℚ → ℚ
  wzeta : ℚ → ℚ

/-- Mutable state of one h-rho iteration of MfvRungeKutta.ComputeH: the
iteration counter, the bisection bracket, and the particle fields the loop
recomputes. -/
structure HState where
  iteration : ℕ
  h : ℚ
  hLower : ℚ
  hUpper : ℚ
  ndens : ℚ
  invomega : ℚ
  zeta : ℚ
  invh : ℚ
  hfactor : ℚ
  volume : ℚ
  rho : ℚ
  invrho : ℚ
deriving DecidableEq, Repr

/-- First half of the do-while body of MfvRungeKutta.ComputeH (ndim = 1):
bump the iteration counter and recompute ndens, invomega, zeta, volume, rho
and invrho from the current h by the kernel sums over the neighbour lists.
For ndim = 1 the factor pow(invh, ndim) is invh and pow(x, 1/ndim) is x. -/
def hIterBody (P : HParams) (s : HState) : HState :=
  let invh := 1 / s.h
  let hfactor := invh
  let invhsqd := invh * invh
  let ndens := (P.drsqd.map (fun d => P.w0s2 (d * invhsqd))).sum * hfactor
  let invomega := (P.drsqd.map (fun d => invh * P.womega (d * invhsqd))).sum * hfactor
  let zeta := ((P.mlist.zip P.drsqd).map (fun md => md.1 * P.wzeta (md.2 * invhsqd))).sum * invhsqd
  let rho := P.m * ndens
  { s with
    iteration := s.iteration + 1
    invh := invh
    hfactor := hfactor
    ndens := ndens
    invomega := invomega
    zeta := zeta
    volume := 1 / ndens
    rho := rho
    invrho := if 0 < rho then 1 / rho else s.invrho }

/-- Convergence test of MfvRungeKutta.ComputeH, line for line: rho positive,
h strictly above the lower bound, and the absolute difference between h and
h_fac times pow(volume, 1/ndim) below the constant h_converge. -/
def hConverged (P : HParams) (t : HState) : Prop :=
  0 < t.rho ∧ t.hLower < t.h ∧ |t.h - P.h_fac * t.volume| < P.h_converge

instance (P : HParams) (t : HState) : Decidable (hConverged P t) := by
  unfold hConverged; infer_instance

/-- Update ladder of MfvRungeKutta.ComputeH after a failed convergence test
(iteration_max = 30 in the source): fixed point below 30, first bisection at
exactly 30, bracket tightening plus bisection strictly between 30 and 150.
The tightening condition of the source is
ndens < small_number or ndens times pow(h, ndim) above pow(h_fac, ndim). -/
def hIterUpdate (P : HParams) (t : HState) : HState :=
  if t.iteration < 30 then { t with h := P.h_fac * t.volume }
  else if t.iteration = 30 then { t with h := (t.hLower + t.hUpper) / 2 }
  else if t.iteration < 150 then
    let t2 := if t.ndens < P.small_number ∨ P.h_fac < t.ndens * t.h
              then { t with hUpper := t.h }
              else { t with hLower := t.h }
    { t2 with h := (t2.hLower + t2.hUpper) / 2 }
  else t

/-- Outcome of one pass through the do-while body of
MfvRungeKutta.ComputeH: the convergence break, a normal fall-through to the
while test, the return-0 path signalling a too-small neighbour list, or the
h-iteration-diverged exception. -/
inductive HStepOut
  | brk (t : HState)
  | cont (t : HState)
  | neibError (t : HState)
  | diverged (t : HState)
deriving DecidableEq, Repr

/-- One pass through the do-while body of MfvRungeKutta.ComputeH: recompute
the sums, break on convergence, raise at iteration 150 or beyond, otherwise
apply the update ladder and take the return-0 exit when the new h exceeds
hmax. -/
def computeHStep (P : HParams) (s : HState) : HStepOut :=
  if hConverged P (hIterBody P s) then HStepOut.brk (hIterBody P s)
  else if 150 ≤ (hIterBody P s).iteration then HStepOut.diverged (hIterBody P s)
  else if P.hmax < (hIterUpdate P (hIterBody P s)).h
       then HStepOut.neibError (hIterUpdate P (hIterBody P s))
       else HStepOut.cont (hIterUpdate P (hIterBody P s))

/-- Potential-minimum flag loop of MfvRungeKutta.ComputeH: potmin starts
true and is cleared when some neighbour has gpot above 1.000000001 times the
particle gpot and lies within kernel reach. -/
def potminLoop (gp invhsqd krsqd : ℚ) : List (ℚ × ℚ) → Bool → Bool
  | [], acc => acc
  | p :: ps, acc =>
      potminLoop gp invhsqd krsqd ps
        (if 1000000001 / 1000000000 * gp < p.1 ∧ p.2 * invhsqd < krsqd then false else acc)

/-- Computation of part.potmin from the neighbour gpot and drsqd arrays
(MfvRungeKutta.ComputeH, sink-creation block). -/
def computePotmin (gpot drsqd : List ℚ) (gp invhsqd krsqd : ℚ) : Bool :=
  potminLoop gp invhsqd krsqd (gpot.zip drsqd) true

/-- MeshlessFVParticle fields used by MfvRungeKutta.ComputeGodunovFlux for
ndim = 1 (nvar = ndim + 2 = 3): geometry, the Psi-factor data (the B matrix
is a single rational in one dimension), the primitive vector and the flux
accumulator. -/
structure MfvFluxPart where
  r : ℚ
  v : ℚ
  h : ℚ
  invh : ℚ
  hfactor : ℚ
  volume : ℚ
  ndens : ℚ
  B : ℚ
  Wprim : Fin 3 → ℚ
  dQdt : Fin 3 → ℚ

/-- Per-pair body of MfvRungeKutta.ComputeGodunovFlux (ndim = 1, nvar = 3):
compute the pseudo-area Aij from the two Psi-tilde values, the face position
and velocity, the slope-limited left and right states boosted to the face
frame, the Riemann flux, and accumulate minus flux times Aij into the
particle and plus flux times Aij into the neighbour.  The kernel shape, the
slope limiter, the Riemann solver and the square root are collaborators
outside the provided sources and are taken as parameters. -/
def computeGodunovFluxPair (small_number : ℚ) (sqrtF w0s2 : ℚ → ℚ)
    (limiter : MfvFluxPart → MfvFluxPart → ℚ → Fin 3 → ℚ)
    (riemann : (Fin 3 → ℚ) → (Fin 3 → ℚ) → ℚ → ℚ → Fin 3 → ℚ)
    (part neib : MfvFluxPart) : MfvFluxPart × MfvFluxPart :=
  let draux := part.r - neib.r
  let drsqd := draux * draux
  let invdrmagaux := 1 / sqrtF (drsqd + small_number)
  let dr_unit := draux * invdrmagaux
  let psitildai :=
    neib.B * draux * neib.hfactor * w0s2 (drsqd * neib.invh * neib.invh) / neib.ndens
  let psitildaj :=
    -(part.B * draux * part.hfactor * w0s2 (drsqd * part.invh * part.invh) / part.ndens)
  let Aij := part.volume * psitildaj - neib.volume * psitildai
  let rface := part.r + part.h * (neib.r - part.r) / (part.h + neib.h)
  let draux2 := part.r - rface
  let vface := part.v + (neib.v - part.v) * (draux2 * dr_unit) * invdrmagaux
  let dWl := limiter part neib (rface - part.r)
  let Wleft : Fin 3 → ℚ :=
    fun var => if var.val = 0 then part.Wprim var + dWl var - vface
               else part.Wprim var + dWl var
  let dWr := limiter neib part (rface - neib.r)
  let Wright : Fin 3 → ℚ :=
    fun var => if var.val = 0 then neib.Wprim var + dWr var - vface
               else neib.Wprim var + dWr var
  let flux := riemann Wright Wleft dr_unit vface
  ({ part with dQdt := fun var => part.dQdt var - flux var * Aij },
   { neib with dQdt := fun var => neib.dQdt var + flux var * Aij })

/-- Inner pass of GradhSphTree.UpdateAllSphProperties over the active
particles of one cell: the cell is done when no call of ComputeH returned
the okflag value 0 at the hmax in force. -/
def cellPassDone (compH : ℚ → ℕ → Int) (Nactive : ℕ) (hmax : ℚ) : Bool :=
  (List.range Nactive).all (fun j => compH hmax j != 0)

/-- Outer do-while of GradhSphTree.UpdateAllSphProperties for one cell: at
the top of every pass hmax is multiplied by 1.05 (21/20), then the pass
runs; on a failed pass the loop repeats.  Fuel bounds the number of passes
of the model; none means the fuel ran out with the cell still failing. -/
def updateCellHmaxLoop (compH : ℚ → ℕ → Int) (Nactive : ℕ) : ℕ → ℚ → Option ℚ
  | 0, _ => none
  | fuel + 1, hmax =>
      let hmax2 := 21 / 20 * hmax
      if cellPassDone compH Nactive hmax2 then some hmax2
      else updateCellHmaxLoop compH Nactive fuel hmax2

/-- Capacities of the per-thread scratch arrays of
GradhSphTree.UpdateAllSphProperties: neighbour ids, particle types, two
potential arrays, squared distances, two mass arrays, and positions (of
capacity Nneibmax times ndim). -/
structure ScratchBufs where
  neiblist : ℕ
  ptype : ℕ
  gpot : ℕ
  gpot2 : ℕ
  drsqd : ℕ
  m : ℕ
  m2 : ℕ
  r : ℕ
deriving DecidableEq, Repr

/-- Allocation of every scratch array at a common Nneibmax (positions get
Nneibmax times ndim entries), as done both at thread start and inside the
reallocation loop. -/
def allocScratch (nmax ndimv : ℕ) : ScratchBufs :=
  { neiblist := nmax, ptype := nmax, gpot := nmax, gpot2 := nmax,
    drsqd := nmax, m := nmax, m2 := nmax, r := nmax * ndimv }

/-- Reallocation while-loop of GradhSphTree.UpdateAllSphProperties: while
the gather query reports overflow (-1), double Nneibmax, reallocate every
scratch array at the doubled capacity and run the query again.  The state
triple is the buffers, the current Nneibmax and the last query result. -/
def gatherRetryLoop (query : ℕ → Int) (ndimv : ℕ) :
    ℕ → ScratchBufs × ℕ × Int → ScratchBufs × ℕ × Int
  | 0, st => st
  | fuel + 1, (bufs, nmax, n) =>
      if n = -1 then
        gatherRetryLoop query ndimv fuel
          (allocScratch (2 * nmax) ndimv, 2 * nmax, query (2 * nmax))
      else (bufs, nmax, n)

/-- A gather neighbour query with the retry-on-overflow wrapper: allocate at
the initial Nneibmax, query once, then run the doubling loop. -/
def gatherNeibQuery (query : ℕ → Int) (ndimv fuel nmax0 : ℕ) :
    ScratchBufs × ℕ × Int :=
  gatherRetryLoop query ndimv fuel (allocScratch nmax0 ndimv, nmax0, query nmax0)

/-! Concrete instances used by the counterexamples and witnesses below. -/

/-- A unit box whose two x faces are mirror faces and whose other faces are
open. -/
def boxMirrorX : DomainBox3 :=
  { x_boundary_lhs := BoundaryKind.mirror, x_boundary_rhs := BoundaryKind.mirror
    y_boundary_lhs := BoundaryKind.opn, y_boundary_rhs := BoundaryKind.opn
    z_boundary_lhs := BoundaryKind.opn, z_boundary_rhs := BoundaryKind.opn
    boxmin0 := 0, boxmin1 := 0, boxmin2 := 0
    boxmax0 := 1, boxmax1 := 1, boxmax2 := 1
    boxsize0 := 1, boxsize1 := 1, boxsize2 := 1 }

/-- A particle that has crossed the left x face of the unit box, moving
outward. -/
def partOutsideMirror : Part3 :=
  { r0 := -1/2, r1 := 1/2, r2 := 1/2, v0 := -3, v1 := 0, v2 := 0 }

/-- A unit box whose two x faces are periodic and whose other faces are
open. -/
def boxPeriodicX : DomainBox3 :=
  { x_boundary_lhs := BoundaryKind.periodic, x_boundary_rhs := BoundaryKind.periodic
    y_boundary_lhs := BoundaryKind.opn, y_boundary_rhs := BoundaryKind.opn
    z_boundary_lhs := BoundaryKind.opn, z_boundary_rhs := BoundaryKind.opn
    boxmin0 := 0, boxmin1 := 0, boxmin2 := 0
    boxmax0 := 1, boxmax1 := 1, boxmax2 := 1
    boxsize0 := 1, boxsize1 := 1, boxsize2 := 1 }

/-- A particle a half box-length beyond the right x face of the unit box. -/
def partBeyondRight : Part3 :=
  { r0 := 3/2, r1 := 1/2, r2 := 1/2, v0 := 1, v1 := 2, v2 := 3 }

/-- The unit interval as a one-dimensional domain box. -/
def unitBox1 : Box1 := { boxmin := 0, boxmax := 1, boxsize := 1 }

/-- A real particle near the right face, in its current (already advanced)
state: position 9/10, velocity 5. -/
def parentNow : SphSimPart :=
  { r := 9/10, v := 5, m := 1, u := 1, rho := 1, h := 1/10, iorig := 0, active := true }

/-- The right-periodic ghost of that particle as created one sub-step
earlier, when the parent was still at position 19/20 with velocity 3. -/
def ghostStale : SphSimPart :=
  { r := -1/20, v := 3, m := 1, u := 1, rho := 1, h := 1/10, iorig := 0, active := false }

/-- ComputeH parameters whose kernel sums vanish identically, so that the
computed number density is exactly zero. -/
def hParamsZeroDens : HParams :=
  { m := 1, h_fac := 1, h_converge := 1/100, small_number := 1/(10^20), hmax := 100,
    mlist := [1], drsqd := [1],
    w0s2 := fun _ => 0, womega := fun _ => 0, wzeta := fun _ => 0 }

/-- An h-iteration state entering the bracket-tightening regime: the pass
about to run is iteration 31. -/
def hStateIter30 : HState :=
  { iteration := 30, h := 2, hLower := 0, hUpper := 10,
    ndens := 0, invomega := 0, zeta := 0, invh := 0, hfactor := 0,
    volume := 0, rho := 0, invrho := 0 }

/-- An h-iteration state whose next pass is iteration 150, the pass that
raises the divergence error. -/
def hStateIter149 : HState :=
  { iteration := 149, h := 2, hLower := 0, hUpper := 10,
    ndens := 0, invomega := 0, zeta := 0, invh := 0, hfactor := 0,
    volume := 0, rho := 0, invrho := 0 }

/-- ComputeH parameters with a constant kernel sum of one half and a tight
absolute tolerance: at h = 2 the fixed-point target is 2003/1000, so the
distance 3/1000 is inside the relative band h_converge times h = 4/1000 but
outside the absolute band h_converge = 2/1000. -/
def hParamsNearMiss : HParams :=
  { m := 1, h_fac := 2003/4000, h_converge := 1/500, small_number := 1/(10^20), hmax := 100,
    mlist := [1], drsqd := [1],
    w0s2 := fun _ => 1/2, womega := fun _ => 0, wzeta := fun _ => 0 }

/-- The same parameters with a looser tolerance under which the same state
does converge; used to witness the convergence characterisation. -/
def hParamsLoose : HParams :=
  { m := 1, h_fac := 2003/4000, h_converge := 1/100, small_number := 1/(10^20), hmax := 100,
    mlist := [1], drsqd := [1],
    w0s2 := fun _ => 1/2, womega := fun _ => 0, wzeta := fun _ => 0 }

/-- A fresh iteration state at h = 2 with an open bracket. -/
def hStateFresh : HState :=
  { iteration := 0, h := 2, hLower := 0, hUpper := 10,
    ndens := 0, invomega := 0, zeta := 0, invh := 0, hfactor := 0,
    volume := 0, rho := 0, invrho := 0 }

/-- A default particle record with iorig zero. -/
def sphPartZero : SphSimPart :=
  { r := 0, v := 0, m := 0, u := 0, rho := 0, h := 0, iorig := 0, active := false }

/-- Particle-store state exactly at the sizing of SearchGhostParticles
(Nghostmax = Nsphmax - Nsph) with the ghost tail already full:
Nsph = 4 real particles, capacity Nsphmax = 6, and Nghost = Nghostmax = 2
ghosts already created. -/
def ghostStateFull : GhostState :=
  { Nsph := 4, Nghost := 2, Nghostmax := 2, Nsphmax := 6, data := fun _ => sphPartZero }

/-- Particle-store state with one real particle and no ghosts yet. -/
def ghostStateEmpty : GhostState :=
  { Nsph := 1, Nghost := 0, Nghostmax := 3, Nsphmax := 4, data := fun _ => sphPartZero }

/-- A default meshless-FV particle record. -/
def mfvPartZero : MfvGhostPart :=
  { r := 0, v := 0, m := 0, u := 0, rho := 0, h := 0, iorig := 0,
    itype := GhostType.gas, active := false }

/-! Theorems.  Helper lemmas come first, then one theorem (plus witness or
counterexample) per claim of the specification. -/

/-- When neither face of a dimension is periodic, the boundary sweep leaves
the coordinate unchanged: the source acts only on periodic faces. -/
theorem wrapDim_eq_of_not_periodic (lhs rhs : BoundaryKind) (bmin bmax bsize r : ℚ)
    (h1 : lhs ≠ BoundaryKind.periodic) (h2 : rhs ≠ BoundaryKind.periodic) :
    wrapDim lhs rhs bmin bmax bsize r = r := by
  simp [wrapDim, h1, h2]

/-- A coordinate within one box length of a box whose two faces are periodic
is inside the box after the sweep. -/
theorem wrapDim_mem_of_periodic (bmin bmax bsize r : ℚ)
    (hsz : bsize = bmax - bmin) (_hbb : bmin ≤ bmax)
    (hlo : bmin - bsize ≤ r) (hhi : r ≤ bmax + bsize) :
    bmin ≤ wrapDim BoundaryKind.periodic BoundaryKind.periodic bmin bmax bsize r ∧
    wrapDim BoundaryKind.periodic BoundaryKind.periodic bmin bmax bsize r ≤ bmax := by
  simp only [wrapDim, and_true]
  split_ifs with hA hB hC <;> constructor <;> linarith

/-- C1 (amended): Simulation.CheckBoundaries handles only periodic faces.
After the sweep, velocities are unchanged in every dimension; a coordinate
whose two faces are not periodic (in particular mirror faces) is unchanged,
with no reflection and no velocity flip; and a coordinate of a dimension
whose two faces are periodic, starting within one box length of the box,
ends inside [boxmin, boxmax]. -/
theorem checkBoundaries_periodic_only_contract (box : DomainBox3) (p : Part3) :
    ((checkBoundariesPart box p).v0 = p.v0 ∧ (checkBoundariesPart box p).v1 = p.v1 ∧
      (checkBoundariesPart box p).v2 = p.v2) ∧
    (box.x_boundary_lhs ≠ BoundaryKind.periodic → box.x_boundary_rhs ≠ BoundaryKind.periodic →
      (checkBoundariesPart box p).r0 = p.r0) ∧
    (box.y_boundary_lhs ≠ BoundaryKind.periodic → box.y_boundary_rhs ≠ BoundaryKind.periodic →
      (checkBoundariesPart box p).r1 = p.r1) ∧
    (box.z_boundary_lhs ≠ BoundaryKind.periodic → box.z_boundary_rhs ≠ BoundaryKind.periodic →
      (checkBoundariesPart box p).r2 = p.r2) ∧
    (box.x_boundary_lhs = BoundaryKind.periodic → box.x_boundary_rhs = BoundaryKind.periodic →
      box.boxsize0 = box.boxmax0 - box.boxmin0 → box.boxmin0 ≤ box.boxmax0 →
      box.boxmin0 - box.boxsize0 ≤ p.r0 → p.r0 ≤ box.boxmax0 + box.boxsize0 →
      box.boxmin0 ≤ (checkBoundariesPart box p).r0 ∧
        (checkBoundariesPart box p).r0 ≤ box.boxmax0) ∧
    (box.y_boundary_lhs = BoundaryKind.periodic → box.y_boundary_rhs = BoundaryKind.periodic →
      box.boxsize1 = box.boxmax1 - box.boxmin1 → box.boxmin1 ≤ box.boxmax1 →
      box.boxmin1 - box.boxsize1 ≤ p.r1 → p.r1 ≤ box.boxmax1 + box.boxsize1 →
      box.boxmin1 ≤ (checkBoundariesPart box p).r1 ∧
        (checkBoundariesPart box p).r1 ≤ box.boxmax1) ∧
    (box.z_boundary_lhs = BoundaryKind.periodic → box.z_boundary_rhs = BoundaryKind.periodic →
      box.boxsize2 = box.boxmax2 - box.boxmin2 → box.boxmin2 ≤ box.boxmax2 →
      box.boxmin2 - box.boxsize2 ≤ p.r2 → p.r2 ≤ box.boxmax2 + box.boxsize2 →
      box.boxmin2 ≤ (checkBoundariesPart box p).r2 ∧
        (checkBoundariesPart box p).r2 ≤ box.boxmax2) := by
  refine ⟨⟨rfl, rfl, rfl⟩, ?_, ?_, ?_, ?_, ?_, ?_⟩
  · intro h1 h2
    exact wrapDim_eq_of_not_periodic _ _ _ _ _ _ h1 h2
  · intro h1 h2
    exact wrapDim_eq_of_not_periodic _ _ _ _ _ _ h1 h2
  · intro h1 h2
    exact wrapDim_eq_of_not_periodic _ _ _ _ _ _ h1 h2
  · intro h1 h2 h3 h4 h5 h6
    have e : (checkBoundariesPart box p).r0 =
        wrapDim box.x_boundary_lhs box.x_boundary_rhs box.boxmin0 box.boxmax0 box.boxsize0 p.r0 :=
      rfl
    rw [e, h1, h2]
    exact wrapDim_mem_of_periodic _ _ _ _ h3 h4 h5 h6
  · intro h1 h2 h3 h4 h5 h6
    have e : (checkBoundariesPart box p).r1 =
        wrapDim box.y_boundary_lhs box.y_boundary_rhs box.boxmin1 box.boxmax1 box.boxsize1 p.r1 :=
      rfl
    rw [e, h1, h2]
    exact wrapDim_mem_of_periodic _ _ _ _ h3 h4 h5 h6
  · intro h1 h2 h3 h4 h5 h6
    have e : (checkBoundariesPart box p).r2 =
        wrapDim box.z_boundary_lhs box.z_boundary_rhs box.boxmin2 box.boxmax2 box.boxsize2 p.r2 :=
      rfl
    rw [e, h1, h2]
    exact wrapDim_mem_of_periodic _ _ _ _ h3 h4 h5 h6

/-- C1 witness: the contract applied to the periodic unit box and a particle
half a box length beyond the right x face; the wrapped coordinate lands
inside the box. -/
theorem checkBoundaries_periodic_only_contract_witness :
    (boxPeriodicX.x_boundary_lhs = BoundaryKind.periodic ∧
      boxPeriodicX.x_boundary_rhs = BoundaryKind.periodic ∧
      boxPeriodicX.boxsize0 = boxPeriodicX.boxmax0 - boxPeriodicX.boxmin0 ∧
      boxPeriodicX.boxmin0 ≤ boxPeriodicX.boxmax0 ∧
      boxPeriodicX.boxmin0 - boxPeriodicX.boxsize0 ≤ partBeyondRight.r0 ∧
      partBeyondRight.r0 ≤ boxPeriodicX.boxmax0 + boxPeriodicX.boxsize0) ∧
    (boxPeriodicX.boxmin0 ≤ (checkBoundariesPart boxPeriodicX partBeyondRight).r0 ∧
      (checkBoundariesPart boxPeriodicX partBeyondRight).r0 ≤ boxPeriodicX.boxmax0) :=
  ⟨⟨rfl, rfl, by norm_num [boxPeriodicX], by norm_num [boxPeriodicX],
      by norm_num [boxPeriodicX, partBeyondRight], by norm_num [boxPeriodicX, partBeyondRight]⟩,
    (checkBoundaries_periodic_only_contract boxPeriodicX partBeyondRight).2.2.2.2.1
      rfl rfl (by norm_num [boxPeriodicX]) (by norm_num [boxPeriodicX])
      (by norm_num [boxPeriodicX, partBeyondRight])
      (by norm_num [boxPeriodicX, partBeyondRight])⟩

/-- C1 counterexample: with both x faces mirror (a closed dimension), a
particle at -1/2 that has crossed the left face is left exactly where it is
by the sweep, still outside the box, with its outward velocity intact; no
reflection r to 2 boxmin - r and no velocity flip happens. -/
theorem checkBoundaries_mirror_counterexample :
    boxMirrorX.x_boundary_lhs = BoundaryKind.mirror ∧
    boxMirrorX.x_boundary_rhs = BoundaryKind.mirror ∧
    checkBoundaries boxMirrorX [partOutsideMirror] = [partOutsideMirror] ∧
    partOutsideMirror.r0 < boxMirrorX.boxmin0 ∧
    partOutsideMirror.r0 ≠ 2 * boxMirrorX.boxmin0 - (-1/2) ∧
    partOutsideMirror.v0 = -3 := by
  refine ⟨rfl, rfl, ?_, by norm_num [boxMirrorX, partOutsideMirror],
    by norm_num [boxMirrorX, partOutsideMirror], rfl⟩
  simp only [checkBoundaries, List.map_cons, List.map_nil, List.cons.injEq, and_true]
  show checkBoundariesPart boxMirrorX partOutsideMirror = partOutsideMirror
  simp [checkBoundariesPart, wrapDim, boxMirrorX, partOutsideMirror]

/-- C2 (amended): the two ghost-refresh routines differ.  The meshless-FV
CopyDataToGhosts reloads every field from the current parent and then
reapplies the itype transform: the refreshed ghost carries the parent
non-spatial state, the transformed parent position, and the parent velocity
with the mirror-axis sign flip; iorig and itype survive and active is
cleared.  The older Simulation.CopySphDataToGhosts reloads only the
non-spatial state from the parent and keeps the ghost position and velocity
exactly as they were, without recomputing them from the parent. -/
theorem copyDataToGhosts_fidelity (box : Box1) (par gh : MfvGhostPart)
    (parS ghS : SphSimPart) :
    ((copyDataToGhostMfv box par gh).r = specGhostPosTransform box gh.itype par.r ∧
      (copyDataToGhostMfv box par gh).v = specGhostVelTransform gh.itype par.v ∧
      (copyDataToGhostMfv box par gh).m = par.m ∧
      (copyDataToGhostMfv box par gh).u = par.u ∧
      (copyDataToGhostMfv box par gh).rho = par.rho ∧
      (copyDataToGhostMfv box par gh).h = par.h ∧
      (copyDataToGhostMfv box par gh).iorig = gh.iorig ∧
      (copyDataToGhostMfv box par gh).itype = gh.itype ∧
      (copyDataToGhostMfv box par gh).active = false) ∧
    ((copySphDataToGhost parS ghS).r = ghS.r ∧
      (copySphDataToGhost parS ghS).v = ghS.v ∧
      (copySphDataToGhost parS ghS).m = parS.m ∧
      (copySphDataToGhost parS ghS).u = parS.u ∧
      (copySphDataToGhost parS ghS).rho = parS.rho ∧
      (copySphDataToGhost parS ghS).h = parS.h ∧
      (copySphDataToGhost parS ghS).iorig = ghS.iorig ∧
      (copySphDataToGhost parS ghS).active = false) := by
  constructor
  · cases htype : gh.itype <;>
      simp [copyDataToGhostMfv, specGhostPosTransform, specGhostVelTransform, htype]
  · exact ⟨rfl, rfl, rfl, rfl, rfl, rfl, rfl, rfl⟩

/-- C2 counterexample: a right-periodic ghost made when its parent sat at
19/20 (so the ghost sits at -1/20).  The parent has since moved to 9/10 and
changed velocity from 3 to 5.  After Simulation.CopySphDataToGhosts the
ghost still sits at -1/20 and moves with velocity 3: its position is not the
periodic transform of the current parent position (which would be -1/10) and
its velocity is not the current parent velocity. -/
theorem copySphDataToGhosts_stale_counterexample :
    ghostStale.r = specGhostPosTransform unitBox1 GhostType.x_rhs_periodic (19/20) ∧
    (copySphDataToGhost parentNow ghostStale).r ≠
      specGhostPosTransform unitBox1 GhostType.x_rhs_periodic parentNow.r ∧
    (copySphDataToGhost parentNow ghostStale).v ≠ parentNow.v := by
  refine ⟨?_, ?_, ?_⟩ <;>
    norm_num [copySphDataToGhost, specGhostPosTransform, parentNow, ghostStale, unitBox1]

/-- C8: off-by-one in the ghost-overflow guard of
Simulation.CreateGhostParticle.  With the sizing of SearchGhostParticles
(Nghostmax = Nsphmax - Nsph) and the ghost tail already holding exactly
Nghostmax ghosts, the guard (Nghost greater than Nghostmax) does not fire,
no error is raised, and the new ghost is stored in slot
Nsph + Nghost = Nsphmax, which is not below Nsphmax: one slot past the end
of the particle array. -/
theorem createGhostParticle_overflow_offbyone :
    (createGhostParticle ghostStateFull 0 0 0).isSome = true ∧
    ghostStateFull.Nghostmax = ghostStateFull.Nsphmax - ghostStateFull.Nsph ∧
    ghostStateFull.Nghost = ghostStateFull.Nghostmax ∧
    ghostStateFull.Nsph + ghostStateFull.Nghost = ghostStateFull.Nsphmax ∧
    ¬ ghostStateFull.Nsph + ghostStateFull.Nghost < ghostStateFull.Nsphmax := by
  refine ⟨?_, by decide, by decide, by decide, by decide⟩
  simp [createGhostParticle, ghostStateFull]

/-- C10: every ghost creation or refresh leaves the ghost inactive with
iorig pointing at a real particle.  CreateGhostParticle, entered on a store
whose ghosts all carry real iorig values and with a source index inside the
populated range, stores a ghost with active false and preserves the
invariant that every ghost iorig is below Nsph (chasing through the iorig of
a ghost source); both refresh routines clear active and keep iorig. -/
theorem ghost_iorig_active_invariant (st : GhostState) (i : ℕ) (rk vk : ℚ)
    (box : Box1) (parM ghM : MfvGhostPart) (parS ghS : SphSimPart)
    (hinv : ghostIorigInv st) (hi : i < st.Nsph + st.Nghost) :
    (((createGhostExec st i rk vk).data (st.Nsph + st.Nghost)).active = false ∧
      ghostIorigInv (createGhostExec st i rk vk)) ∧
    ((copySphDataToGhost parS ghS).active = false ∧
      (copySphDataToGhost parS ghS).iorig = ghS.iorig) ∧
    ((copyDataToGhostMfv box parM ghM).active = false ∧
      (copyDataToGhostMfv box parM ghM).iorig = ghM.iorig) := by
  refine ⟨⟨?_, ?_⟩, ⟨rfl, rfl⟩, ?_⟩
  · simp [createGhostExec]
  · intro j hj
    simp only [createGhostExec, Finset.mem_range] at hj ⊢
    rcases Nat.lt_succ_iff_lt_or_eq.mp hj with hlt | heq
    · rw [Function.update_noteq (by omega)]
      exact hinv j (Finset.mem_range.mpr hlt)
    · subst heq
      rw [Function.update_same]
      by_cases hge : st.Nsph ≤ i
      · simp only [hge, if_pos]
        have hji : i - st.Nsph < st.Nghost := by omega
        have := hinv (i - st.Nsph) (Finset.mem_range.mpr hji)
        rwa [Nat.add_sub_cancel' hge] at this
      · simp only [hge, if_neg, if_false]
        omega
  · cases htype : ghM.itype <;> simp [copyDataToGhostMfv, htype]

/-- C10 witness: creating the first ghost of a one-particle store from the
real particle 0 leaves an inactive ghost and keeps every ghost iorig below
Nsph. -/
theorem ghost_iorig_active_invariant_witness :
    (ghostIorigInv ghostStateEmpty ∧
      0 < ghostStateEmpty.Nsph + ghostStateEmpty.Nghost) ∧
    (((createGhostExec ghostStateEmpty 0 5 7).data
        (ghostStateEmpty.Nsph + ghostStateEmpty.Nghost)).active = false ∧
      ghostIorigInv (createGhostExec ghostStateEmpty 0 5 7)) :=
  ⟨⟨by decide, by decide⟩,
    (ghost_iorig_active_invariant ghostStateEmpty 0 5 7 unitBox1 mfvPartZero mfvPartZero
        sphPartZero sphPartZero (by decide) (by decide)).1⟩

/-- C5: in the per-pair flux accumulation of MfvRungeKutta.ComputeGodunovFlux
the amount added to the dQdt of the particle is exactly the negation of the
amount added to the dQdt of the neighbour, for every conserved variable,
whatever the kernel, limiter, Riemann solver and square root do: both
updates use the same flux and the same pseudo-area. -/
theorem computeGodunovFlux_pair_antisymmetry (small_number : ℚ) (sqrtF w0s2 : ℚ → ℚ)
    (limiter : MfvFluxPart → MfvFluxPart → ℚ → Fin 3 → ℚ)
    (riemann : (Fin 3 → ℚ) → (Fin 3 → ℚ) → ℚ → ℚ → Fin 3 → ℚ)
    (part neib : MfvFluxPart) (var : Fin 3) :
    (computeGodunovFluxPair small_number sqrtF w0s2 limiter riemann part neib).1.dQdt var
        - part.dQdt var =
      -((computeGodunovFluxPair small_number sqrtF w0s2 limiter riemann part neib).2.dQdt var
        - neib.dQdt var) := by
  simp only [computeGodunovFluxPair]
  ring

/-- The potmin loop started from false stays false. -/
theorem potminLoop_false (gp invhsqd krsqd : ℚ) (l : List (ℚ × ℚ)) :
    potminLoop gp invhsqd krsqd l false = false := by
  induction l with
  | nil => rfl
  | cons p ps ih =>
      show potminLoop gp invhsqd krsqd ps
        (if 1000000001 / 1000000000 * gp < p.1 ∧ p.2 * invhsqd < krsqd
         then false else false) = false
      rw [ite_self]
      exact ih

/-- The potmin loop started from true is true exactly when no list entry
fires the clearing condition. -/
theorem potminLoop_true_iff (gp invhsqd krsqd : ℚ) (l : List (ℚ × ℚ)) :
    potminLoop gp invhsqd krsqd l true = true ↔
      ∀ p ∈ l, ¬(1000000001 / 1000000000 * gp < p.1 ∧ p.2 * invhsqd < krsqd) := by
  induction l with
  | nil => simp [potminLoop]
  | cons p ps ih =>
      by_cases hc : 1000000001 / 1000000000 * gp < p.1 ∧ p.2 * invhsqd < krsqd
      · simp [potminLoop, hc, potminLoop_false]
      · simp only [potminLoop]
        rw [if_neg hc, ih]
        constructor
        · intro h q hq
          rcases List.mem_cons.mp hq with h1 | h2
          · subst h1; exact hc
          · exact h q h2
        · intro h q hq
          exact h q (List.mem_cons_of_mem p hq)

/-- C9 (amended): with sink creation on, the potmin flag computed at the end
of MfvRungeKutta.ComputeH is true exactly when no neighbour within kernel
reach has gravitational potential above 1.000000001 times the particle
potential; the comparison carries that tolerance factor and is not a strict
greater-than against the particle potential itself. -/
theorem computePotmin_iff (gpot drsqd : List ℚ) (gp invhsqd krsqd : ℚ) :
    computePotmin gpot drsqd gp invhsqd krsqd = true ↔
      ∀ p ∈ gpot.zip drsqd,
        ¬(1000000001 / 1000000000 * gp < p.1 ∧ p.2 * invhsqd < krsqd) :=
  potminLoop_true_iff gp invhsqd krsqd (gpot.zip drsqd)

/-- C9 counterexample: a neighbour at zero distance whose potential
1 + 10^-10 is strictly greater than the particle potential 1 and lies well
inside kernel reach, yet potmin remains true because the neighbour potential
does not exceed the 1.000000001 tolerance threshold. -/
theorem computePotmin_tolerance_counterexample :
    computePotmin [10000000001/10000000000] [0] 1 1 4 = true ∧
    (1 : ℚ) < 10000000001/10000000000 ∧ (0 : ℚ) * 1 < 4 := by
  refine ⟨?_, by norm_num, by norm_num⟩
  norm_num [computePotmin, potminLoop, List.zip]

/-- C3 (amended): schedule of the h iteration of MfvRungeKutta.ComputeH,
counting passes by the post-increment counter.  On a pass that does not
converge: below iteration 30 the update is the fixed point
h_fac times volume with the bracket untouched; at exactly 30 the first
bisection of the untouched bracket; strictly between 30 and 150 the bracket
tightens (upper bound to h when ndens is below small_number or the particle
is over-dense, ndens times h above h_fac, otherwise lower bound to h)
followed by bisection of the new bracket; and at 150 or beyond the
h-iteration-diverged error is raised.  Passes below 150 fall through to the
while test, or take the return-0 exit when the new h exceeds hmax. -/
theorem mfv_computeH_iteration_schedule (P : HParams) (s t : HState)
    (ht : t = hIterBody P s) (hnc : ¬ hConverged P t) :
    (t.iteration < 150 →
      computeHStep P s =
        (if P.hmax < (hIterUpdate P t).h then HStepOut.neibError (hIterUpdate P t)
         else HStepOut.cont (hIterUpdate P t))) ∧
    (t.iteration < 30 →
      (hIterUpdate P t).h = P.h_fac * t.volume ∧
      (hIterUpdate P t).hLower = t.hLower ∧ (hIterUpdate P t).hUpper = t.hUpper) ∧
    (t.iteration = 30 →
      (hIterUpdate P t).h = (t.hLower + t.hUpper) / 2 ∧
      (hIterUpdate P t).hLower = t.hLower ∧ (hIterUpdate P t).hUpper = t.hUpper) ∧
    (30 < t.iteration → t.iteration < 150 →
      ((t.ndens < P.small_number ∨ P.h_fac < t.ndens * t.h →
          (hIterUpdate P t).hUpper = t.h ∧ (hIterUpdate P t).hLower = t.hLower) ∧
       (¬(t.ndens < P.small_number ∨ P.h_fac < t.ndens * t.h) →
          (hIterUpdate P t).hLower = t.h ∧ (hIterUpdate P t).hUpper = t.hUpper) ∧
       (hIterUpdate P t).h = ((hIterUpdate P t).hLower + (hIterUpdate P t).hUpper) / 2)) ∧
    (150 ≤ t.iteration → computeHStep P s = HStepOut.diverged t) := by
  subst ht
  refine ⟨?_, ?_, ?_, ?_, ?_⟩
  · intro h150
    unfold computeHStep
    rw [if_neg hnc, if_neg (by omega : ¬ 150 ≤ (hIterBody P s).iteration)]
  · intro hlt
    unfold hIterUpdate
    rw [if_pos hlt]
    exact ⟨rfl, rfl, rfl⟩
  · intro heq
    unfold hIterUpdate
    rw [if_neg (by omega : ¬ (hIterBody P s).iteration < 30), if_pos heq]
    exact ⟨rfl, rfl, rfl⟩
  · intro h30 h150
    unfold hIterUpdate
    rw [if_neg (by omega : ¬ (hIterBody P s).iteration < 30),
        if_neg (by omega : ¬ (hIterBody P s).iteration = 30), if_pos h150]
    refine ⟨?_, ?_, ?_⟩
    · intro hcond
      rw [if_pos hcond]
      exact ⟨rfl, rfl⟩
    · intro hcond
      rw [if_neg hcond]
      exact ⟨rfl, rfl⟩
    · by_cases hcond :
        (hIterBody P s).ndens < P.small_number ∨
          P.h_fac < (hIterBody P s).ndens * (hIterBody P s).h
      · rw [if_pos hcond]
      · rw [if_neg hcond]
  · intro h150
    unfold computeHStep
    rw [if_neg hnc, if_pos h150]

/-- C3 witness: the schedule applied at a pass whose post-increment counter
is 150 with a zero density (so the convergence test fails): the step raises
the divergence error. -/
theorem mfv_computeH_iteration_schedule_witness :
    (¬ hConverged hParamsZeroDens (hIterBody hParamsZeroDens hStateIter149)) ∧
    computeHStep hParamsZeroDens hStateIter149 =
      HStepOut.diverged (hIterBody hParamsZeroDens hStateIter149) :=
  ⟨by norm_num [hConverged, hIterBody, hParamsZeroDens, hStateIter149],
    (mfv_computeH_iteration_schedule hParamsZeroDens hStateIter149 _ rfl
        (by norm_num [hConverged, hIterBody, hParamsZeroDens, hStateIter149])).2.2.2.2
      (by norm_num [hIterBody, hStateIter149])⟩

/-- C3 counterexample: a pass at post-increment counter 31 with ndens = 0.
The particle is not over-dense (ndens times h is not above h_fac), so the
claim as stated requires the lower bracket bound to become h = 2; the code
instead takes the small_number branch and moves the upper bound to 2,
leaving the lower bound at 0, and bisects to h = 1. -/
theorem mfv_computeH_bracket_counterexample :
    computeHStep hParamsZeroDens hStateIter30 = HStepOut.cont
      { iteration := 31, h := 1, hLower := 0, hUpper := 2, ndens := 0,
        invomega := 0, zeta := 0, invh := 1/2, hfactor := 1/2,
        volume := 0, rho := 0, invrho := 0 } ∧
    ¬ hParamsZeroDens.h_fac <
        (hIterBody hParamsZeroDens hStateIter30).ndens * hStateIter30.h ∧
    hStateIter30.h = 2 ∧ (0 : ℚ) ≠ 2 := by
  refine ⟨?_, ?_, rfl, by norm_num⟩
  · norm_num [computeHStep, hConverged, hIterBody, hIterUpdate,
      hParamsZeroDens, hStateIter30]
  · norm_num [hIterBody, hParamsZeroDens, hStateIter30]

/-- C4 (amended): a pass of MfvRungeKutta.ComputeH exits the iteration loop
through the convergence break exactly when rho is positive, h is strictly
above its lower bound, and the distance between h and h_fac times
(m over rho) is below the constant h_converge: the tolerance is absolute and
does not scale with h. -/
theorem mfv_computeH_convergence (P : HParams) (s : HState) (hm : P.m ≠ 0) :
    (∃ t, computeHStep P s = HStepOut.brk t) ↔
      (0 < (hIterBody P s).rho ∧ (hIterBody P s).hLower < (hIterBody P s).h ∧
        |(hIterBody P s).h - P.h_fac * (P.m / (hIterBody P s).rho)| < P.h_converge) := by
  have h1 : (hIterBody P s).volume = 1 / (hIterBody P s).ndens := rfl
  have h2 : (hIterBody P s).rho = P.m * (hIterBody P s).ndens := rfl
  have hv : (hIterBody P s).volume = P.m / (hIterBody P s).rho := by
    rw [h1, h2, div_mul_eq_div_div, div_self hm]
  rw [← hv]
  constructor
  · rintro ⟨t, htb⟩
    by_cases hc : hConverged P (hIterBody P s)
    · exact hc
    · exfalso
      unfold computeHStep at htb
      rw [if_neg hc] at htb
      split_ifs at htb
  · intro hr
    have hc : hConverged P (hIterBody P s) := hr
    refine ⟨hIterBody P s, ?_⟩
    unfold computeHStep
    rw [if_pos hc]

/-- C4 witness: with a loosened absolute tolerance of 1/100 the state at
h = 2 with fixed-point target 2003/1000 does satisfy the characterisation,
and the step breaks out of the loop. -/
theorem mfv_computeH_convergence_witness :
    hParamsLoose.m ≠ 0 ∧
    ((∃ t, computeHStep hParamsLoose hStateFresh = HStepOut.brk t) ↔
      (0 < (hIterBody hParamsLoose hStateFresh).rho ∧
        (hIterBody hParamsLoose hStateFresh).hLower < (hIterBody hParamsLoose hStateFresh).h ∧
        |(hIterBody hParamsLoose hStateFresh).h - hParamsLoose.h_fac *
            (hParamsLoose.m / (hIterBody hParamsLoose hStateFresh).rho)| <
          hParamsLoose.h_converge)) :=
  ⟨by norm_num [hParamsLoose],
    mfv_computeH_convergence hParamsLoose hStateFresh (by norm_num [hParamsLoose])⟩

/-- C4 counterexample: at h = 2 with fixed-point target 2003/1000 and
h_converge = 1/500 the relative criterion of the claim holds (the distance
3/1000 is below h_converge times h = 4/1000), rho is positive and h is above
its lower bound, yet the pass does not break: it continues with the
fixed-point update because the distance is not below the absolute tolerance
2/1000 that the code actually uses. -/
theorem mfv_computeH_tolerance_counterexample :
    computeHStep hParamsNearMiss hStateFresh = HStepOut.cont
      { iteration := 1, h := 2003/1000, hLower := 0, hUpper := 10, ndens := 1/4,
        invomega := 0, zeta := 0, invh := 1/2, hfactor := 1/2,
        volume := 4, rho := 1/4, invrho := 4 } ∧
    0 < (hIterBody hParamsNearMiss hStateFresh).rho ∧
    hStateFresh.hLower < hStateFresh.h ∧
    |hStateFresh.h - hParamsNearMiss.h_fac *
        (hParamsNearMiss.m / (hIterBody hParamsNearMiss hStateFresh).rho)| <
      hParamsNearMiss.h_converge * hStateFresh.h := by
  refine ⟨?_, ?_, by norm_num [hStateFresh], ?_⟩
  · norm_num [computeHStep, hConverged, hIterBody, hIterUpdate,
      hParamsNearMiss, hStateFresh]
    intro hx
    rw [abs_of_pos (by norm_num : (0:ℚ) < 3/1000)] at hx
    norm_num at hx
  · norm_num [hIterBody, hParamsNearMiss, hStateFresh]
  · norm_num [hIterBody, hParamsNearMiss, hStateFresh]
    rw [abs_of_pos (by norm_num : (0:ℚ) < 3/1000)]
    norm_num

/-- Characterisation of a successful run of the per-cell hmax loop: the
returned gather radius is the initial cell hmax multiplied by 1.05 once per
pass, the final pass succeeded, and every earlier pass failed. -/
theorem updateCellHmaxLoop_some (compH : ℚ → ℕ → Int) (Nactive : ℕ) :
    ∀ (fuel : ℕ) (h0 hfin : ℚ), updateCellHmaxLoop compH Nactive fuel h0 = some hfin →
      ∃ k, k < fuel ∧ hfin = (21/20)^(k+1) * h0 ∧
        cellPassDone compH Nactive hfin = true ∧
        ∀ j, j < k → cellPassDone compH Nactive ((21/20)^(j+1) * h0) = false := by
  intro fuel
  induction fuel with
  | zero =>
      intro h0 hfin hrun
      simp [updateCellHmaxLoop] at hrun
  | succ f ih =>
      intro h0 hfin hrun
      by_cases hdone : cellPassDone compH Nactive (21/20 * h0) = true
      · have hfe : hfin = 21/20 * h0 := by
          simp [updateCellHmaxLoop, hdone] at hrun
          exact hrun.symm
        refine ⟨0, Nat.succ_pos f, ?_, ?_, ?_⟩
        · rw [hfe, pow_one]
        · rw [hfe]; exact hdone
        · intro j hj; omega
      · have hrec : updateCellHmaxLoop compH Nactive f (21/20 * h0) = some hfin := by
          simpa [updateCellHmaxLoop, hdone] using hrun
        obtain ⟨k, hk, heq, hdone2, hfails⟩ := ih (21/20 * h0) hfin hrec
        refine ⟨k + 1, by omega, ?_, hdone2, ?_⟩
        · rw [heq, pow_succ]; ring
        · intro j hj
          cases j with
          | zero =>
              rw [pow_one]
              exact Bool.eq_false_iff.mpr (fun hx => hdone hx)
          | succ j =>
              have := hfails j (by omega)
              have hpow : (21/20 : ℚ)^(j+1) * (21/20 * h0) = (21/20)^(j+1+1) * h0 := by
                rw [pow_succ]; ring
              rwa [hpow] at this

/-- C6 (amended): the outer loop of GradhSphTree.UpdateAllSphProperties
multiplies hmax by 1.05 at the top of every pass, including the first, so
the gather radius of pass k is 1.05 to the power k times the cell hmax;
a further pass (and hence a further expansion) happens only when some active
particle failed ComputeH in the previous pass; the successful exit happens
only on a pass in which every active particle succeeds; and for a positive
cell hmax the sequence of radii used is strictly increasing. -/
theorem updateAllSphProperties_hmax_expansion (compH : ℚ → ℕ → Int)
    (Nactive fuel : ℕ) (h0 hfin : ℚ)
    (hrun : updateCellHmaxLoop compH Nactive fuel h0 = some hfin) :
    (∃ k, k < fuel ∧ hfin = (21/20)^(k+1) * h0 ∧
      cellPassDone compH Nactive hfin = true ∧
      ∀ j, j < k → cellPassDone compH Nactive ((21/20)^(j+1) * h0) = false) ∧
    (0 < h0 → ∀ a b : ℕ, a < b → (21/20 : ℚ)^(a+1) * h0 < (21/20)^(b+1) * h0) := by
  refine ⟨updateCellHmaxLoop_some compH Nactive fuel h0 hfin hrun, ?_⟩
  intro hpos a b hab
  have h1 : (21/20 : ℚ)^(a+1) < (21/20)^(b+1) := by
    apply pow_lt_pow_right₀ (by norm_num) (by omega)
  exact mul_lt_mul_of_pos_right h1 hpos

/-- C6 witness: with a ComputeH that always succeeds, the loop over a cell
of one active particle with initial hmax 1 succeeds on the first pass and
returns the expanded radius 21/20. -/
theorem updateAllSphProperties_hmax_expansion_witness :
    updateCellHmaxLoop (fun _ _ => 1) 1 2 1 = some (21/20) ∧
    (∃ k, k < 2 ∧ (21/20 : ℚ) = (21/20)^(k+1) * 1 ∧
      cellPassDone (fun _ _ => 1) 1 (21/20) = true ∧
      ∀ j, j < k → cellPassDone (fun _ _ => 1) 1 ((21/20)^(j+1) * 1) = false) :=
  ⟨by norm_num [updateCellHmaxLoop, cellPassDone],
    (updateAllSphProperties_hmax_expansion (fun _ _ => 1) 1 2 1 (21/20)
        (by norm_num [updateCellHmaxLoop, cellPassDone])).1⟩

/-- C6 counterexample: with a ComputeH that always succeeds, no gather list
is ever insufficient, yet the radius used (and returned) by the single pass
is 21/20 times the cell hmax, not the cell hmax itself: the first expansion
happens before any failure, against the claim that hmax is expanded only
when a gather list is insufficient. -/
theorem updateCellHmax_unconditional_expansion_counterexample :
    updateCellHmaxLoop (fun _ _ => 1) 1 1 1 = some (21/20) ∧ (21/20 : ℚ) ≠ 1 := by
  constructor
  · norm_num [updateCellHmaxLoop, cellPassDone]
  · norm_num

/-- Characterisation of the retry loop of the gather query: if the query
overflows at the first k capacities of the doubling schedule and succeeds at
capacity 2^k times the initial one, the loop ends with every scratch array
reallocated at that capacity and the successful result, consuming one fuel
per doubling. -/
theorem gatherRetryLoop_spec (query : ℕ → Int) (ndimv : ℕ) :
    ∀ (k fuel nmax0 : ℕ) (n : Int),
      (∀ j, j < k → query (2^j * nmax0) = -1) → query (2^k * nmax0) = n → n ≠ -1 →
      k < fuel →
      gatherRetryLoop query ndimv fuel (allocScratch nmax0 ndimv, nmax0, query nmax0) =
        (allocScratch (2^k * nmax0) ndimv, 2^k * nmax0, n) := by
  intro k
  induction k with
  | zero =>
      intro fuel nmax0 n hfail hsucc hne hk
      obtain ⟨f, rfl⟩ : ∃ f, fuel = f + 1 := ⟨fuel - 1, by omega⟩
      simp only [pow_zero, one_mul] at hsucc ⊢
      rw [hsucc]
      simp [gatherRetryLoop, hne]
  | succ k ih =>
      intro fuel nmax0 n hfail hsucc hne hk
      obtain ⟨f, rfl⟩ : ∃ f, fuel = f + 1 := ⟨fuel - 1, by omega⟩
      have h0 : query nmax0 = -1 := by
        have := hfail 0 (Nat.succ_pos k)
        simpa using this
      have hstep :
          gatherRetryLoop query ndimv (f + 1)
              (allocScratch nmax0 ndimv, nmax0, query nmax0) =
            gatherRetryLoop query ndimv f
              (allocScratch (2 * nmax0) ndimv, 2 * nmax0, query (2 * nmax0)) := by
        rw [h0]
        simp [gatherRetryLoop]
      have hfail2 : ∀ j, j < k → query (2^j * (2 * nmax0)) = -1 := by
        intro j hj
        have := hfail (j + 1) (by omega)
        have hpow : (2:ℕ)^(j+1) * nmax0 = 2^j * (2 * nmax0) := by
          rw [pow_succ]; ring
        rwa [hpow] at this
      have hsucc2 : query (2^k * (2 * nmax0)) = n := by
        have hpow : (2:ℕ)^(k+1) * nmax0 = 2^k * (2 * nmax0) := by
          rw [pow_succ]; ring
        rwa [hpow] at hsucc
      rw [hstep, ih f (2 * nmax0) n hfail2 hsucc2 hne (by omega)]
      have hpow : (2:ℕ)^k * (2 * nmax0) = 2^(k+1) * nmax0 := by
        rw [pow_succ]; ring
      rw [hpow]

/-- C7 (amended): the gather neighbour query of
GradhSphTree.UpdateAllSphProperties is wrapped in a while-loop that, on an
overflow return of -1, doubles Nneibmax, reallocates all eight per-thread
scratch arrays at the doubled capacity, and re-runs the query; the loop
carries no cap and no error path, and ends exactly at the first capacity of
the doubling schedule at which the query stops returning -1. -/
theorem gather_query_doubling_retry (query : ℕ → Int) (ndimv fuel nmax0 k : ℕ) (n : Int)
    (hfail : ∀ j, j < k → query (2^j * nmax0) = -1)
    (hsucc : query (2^k * nmax0) = n) (hne : n ≠ -1) (hk : k < fuel) :
    gatherNeibQuery query ndimv fuel nmax0 =
      (allocScratch (2^k * nmax0) ndimv, 2^k * nmax0, n) := by
  unfold gatherNeibQuery
  exact gatherRetryLoop_spec query ndimv k fuel nmax0 n hfail hsucc hne hk

/-- C7 witness: a query that overflows at capacity 1 and returns 7 at
capacity 2 makes the wrapper return the doubled buffers and the value 7. -/
theorem gather_query_doubling_retry_witness :
    gatherNeibQuery (fun m => if m < 2 then -1 else 7) 1 3 1 =
      (allocScratch 2 1, 2, 7) :=
  gather_query_doubling_retry (fun m => if m < 2 then -1 else 7) 1 3 1 1 7
    (by intro j hj; interval_cases j; rfl) (by rfl) (by decide) (by decide)

/-- The retry loop under a query that always overflows: every pass doubles
the capacity and no error is ever produced; after any number of passes the
state is simply a doubled allocation still awaiting a successful query. -/
theorem gatherRetryLoop_allFail (ndimv : ℕ) :
    ∀ (fuel nmax0 : ℕ),
      gatherRetryLoop (fun _ => -1) ndimv fuel (allocScratch nmax0 ndimv, nmax0, -1) =
        (allocScratch (2^fuel * nmax0) ndimv, 2^fuel * nmax0, -1) := by
  intro fuel
  induction fuel with
  | zero =>
      intro nmax0
      simp [gatherRetryLoop]
  | succ f ih =>
      intro nmax0
      have hstep :
          gatherRetryLoop (fun _ => (-1 : Int)) ndimv (f + 1)
              (allocScratch nmax0 ndimv, nmax0, -1) =
            gatherRetryLoop (fun _ => (-1 : Int)) ndimv f
              (allocScratch (2 * nmax0) ndimv, 2 * nmax0, -1) := by
        simp [gatherRetryLoop]
      rw [hstep, ih (2 * nmax0)]
      have hpow : (2:ℕ)^f * (2 * nmax0) = 2^(f+1) * nmax0 := by
        rw [pow_succ]; ring
      rw [hpow]

/-- C7 counterexample: under a query that always reports overflow the
wrapper doubles three hundred times in a row, reaching buffer capacity
2^300, and is still merely retrying with result -1: there is no
implementation cap on the doubling and no point at which a
neighbour-buffer-exhausted error is raised (the loop has no error outcome at
all). -/
theorem gather_retry_no_cap_counterexample :
    gatherNeibQuery (fun _ => -1) 1 300 1 = (allocScratch (2^300) 1, 2^300, -1) := by
  unfold gatherNeibQuery
  have h := gatherRetryLoop_allFail 1 300 1
  simpa using h
